import Mathlib

/-!
FastICA verification: a shallow embedding of src/decomposition/fastICA.py and
src/metrics/manhattan.py over the real numbers, together with definitions
modelled from the spec for the repository modules that are not present under
src (the contrast-function factory, the distance-metric factory and the
whitening preprocessor), and theorems settling the specification claims.
Machine floats of the source are embedded as real numbers; numpy division by
zero corresponds to the total real division (x / 0 = 0).
-/

namespace FastICA

/-- Length-n real vectors (one-dimensional numpy arrays). -/
abbrev Vec (n : ℕ) : Type := Fin n → ℝ

/-- n by m real matrices (two-dimensional numpy arrays, row index first). -/
abbrev Mat (n m : ℕ) : Type := Fin n → Fin m → ℝ

/-- np.dot of two equal-length vectors. -/
noncomputable def dot {n : ℕ} (a b : Vec n) : ℝ := ∑ i, a i * b i

/-- np.dot of an n by p matrix with a p by m matrix. -/
noncomputable def matMul {n p m : ℕ} (A : Fin n → Fin p → ℝ) (B : Fin p → Fin m → ℝ) :
    Mat n m :=
  fun i j => ∑ k, A i k * B k j

/-! ## Contrast functions

The module contrast_function/contrast_function_factory.py imported by
src/decomposition/fastICA.py is not under src, so the contrast pairs and the
factory are modelled from the spec (section 4.2). -/

/-- Modelled from the spec: the exp contrast nonlinearity
g(u) = u·exp(−u²/2); the file contrast_function/contrast_function_factory.py
is missing from src. -/
noncomputable def g_exp (u : ℝ) : ℝ := u * Real.exp (-(u ^ 2) / 2)

/-- Modelled from the spec: the derivative of the exp contrast,
gder(u) = (1 − u²)·exp(−u²/2); the contrast-function module is missing
from src. -/
noncomputable def g_der_exp (u : ℝ) : ℝ := (1 - u ^ 2) * Real.exp (-(u ^ 2) / 2)

/-- Modelled from the spec: the logcosh contrast g(u) = tanh(a·u) with the
default tuning constant a = 1; the contrast-function module is missing
from src. -/
noncomputable def g_logcosh (u : ℝ) : ℝ := Real.tanh u

/-- Modelled from the spec: the derivative of the logcosh contrast with
a = 1, gder(u) = 1 − tanh(u)²; the contrast-function module is missing
from src. -/
noncomputable def g_der_logcosh (u : ℝ) : ℝ := 1 - Real.tanh u ^ 2

/-- Modelled from the spec: the kurtosis contrast g(u) = u³; the
contrast-function module is missing from src. -/
noncomputable def g_kurtosis (u : ℝ) : ℝ := u ^ 3

/-- Modelled from the spec: the derivative of the kurtosis contrast,
gder(u) = 3·u²; the contrast-function module is missing from src. -/
noncomputable def g_der_kurtosis (u : ℝ) : ℝ := 3 * u ^ 2

/-- Error kind raised by the contrast-function factory on an unknown name. -/
inductive ContrastError : Type
  | unsupportedContrastFunction : ContrastError
deriving DecidableEq

/-- Modelled from the spec: contrast_function_factory.get_contrast_function,
a pure lookup from the names logcosh, exp, kurtosis to the elementwise
contrast pair (g, gder); unknown names fail with
UnsupportedContrastFunctionError.  The module is missing from src. -/
noncomputable def get_contrast_function (name : String) :
    Except ContrastError ((ℝ → ℝ) × (ℝ → ℝ)) :=
  if name = "logcosh" then Except.ok (g_logcosh, g_der_logcosh)
  else if name = "exp" then Except.ok (g_exp, g_der_exp)
  else if name = "kurtosis" then Except.ok (g_kurtosis, g_der_kurtosis)
  else Except.error ContrastError.unsupportedContrastFunction

/-! ## Manhattan distance metric (src/metrics/manhattan.py) -/

/-- src/metrics/manhattan.py, compute_distance: x1 = np.abs(x),
y1 = np.abs(y), return np.sum(np.abs(x1 - y1)). -/
noncomputable def compute_distance {n : ℕ} (x y : Vec n) : ℝ :=
  let x1 := fun i => |x i|
  let y1 := fun i => |y i|
  ∑ i, |x1 i - y1 i|

/-! ## The fixed-point update (src/decomposition/fastICA.py, calculate_new_w) -/

/-- Lines 22 to 28 of src/decomposition/fastICA.py: the factory is consulted
with the hard-coded name exp, the contrast pair is evaluated at
np.dot(w.T, X), and w_new = (X * g).mean(axis=1) - g_der.mean() * w. -/
noncomputable def calculate_new_w_raw {n m : ℕ} (w : Vec n) (X : Mat n m) : Vec n :=
  let fn_and_der := (get_contrast_function "exp").toOption.getD (id, id)
  let u : Fin m → ℝ := fun j => ∑ i, w i * X i j
  let g : Fin m → ℝ := fun j => fn_and_der.1 (u j)
  let g_der : Fin m → ℝ := fun j => fn_and_der.2 (u j)
  fun i => (∑ j, X i j * g j) / (m : ℝ) - ((∑ j, g_der j) / (m : ℝ)) * w i

/-- Lines 22 to 32 of src/decomposition/fastICA.py: the update of
calculate_new_w_raw followed by the in-place normalization
w_new /= np.sqrt((w_new ** 2).sum()). -/
noncomputable def calculate_new_w {n m : ℕ} (w : Vec n) (X : Mat n m) : Vec n :=
  let w_new := calculate_new_w_raw w X
  fun i => w_new i / Real.sqrt (∑ k, w_new k ^ 2)

/-- The fixed-point update formula exactly as the spec states it in step 2b of
section 4.4: w_new = mean_over_samples(X · g) − mean(gder) · w, with g and
gder evaluated at the length-M vector wᵗX. -/
noncomputable def fixedPointUpdateSpec {n m : ℕ} (g gder : ℝ → ℝ) (w : Vec n) (X : Mat n m) :
    Vec n :=
  fun i =>
    (∑ j, X i j * g (∑ k, w k * X k j)) / (m : ℝ) -
      ((∑ j, gder (∑ k, w k * X k j)) / (m : ℝ)) * w i

/-- Normalization to unit Euclidean norm as the spec states it in step 2d of
section 4.4. -/
noncomputable def normalizeVec {n : ℕ} (v : Vec n) : Vec n :=
  fun i => v i / Real.sqrt (∑ k, v k ^ 2)

/-! ## Distance metric factory

The module metrics/distance_metrics_factory.py imported by
src/decomposition/fastICA.py is not under src; only the manhattan metric
itself (src/metrics/manhattan.py) is.  The factory and the cosine metric are
modelled from the spec (section 4.3). -/

/-- Modelled from the spec: the cosine distance variant 1 − |cos θ(a,b)|;
the metric factory module holding it is missing from src. -/
noncomputable def cosine_distance {n : ℕ} (a b : Vec n) : ℝ :=
  1 - |dot a b| / (Real.sqrt (∑ i, a i ^ 2) * Real.sqrt (∑ i, b i ^ 2))

/-- Error kind raised by the distance-metric factory on an unknown name. -/
inductive MetricError : Type
  | unsupportedMetric : MetricError
deriving DecidableEq

/-- Modelled from the spec: metrics/distance_metrics_factory.py,
get_similarity_metric_fn, a pure lookup from the names cosine and manhattan
to the distance function; unknown names fail with UnsupportedMetricError.
The factory module is missing from src; the manhattan entry is the
compute_distance function of src/metrics/manhattan.py. -/
noncomputable def get_similarity_metric_fn (n : ℕ) (name : String) :
    Except MetricError (Vec n → Vec n → ℝ) :=
  if name = "cosine" then Except.ok cosine_distance
  else if name = "manhattan" then Except.ok compute_distance
  else Except.error MetricError.unsupportedMetric

/-! ## Whitening preprocessor

The module preprocessing/whitening.py imported by
src/decomposition/fastICA.py is not under src; it is modelled from the spec
(section 4.1): center each row, eigendecompose the covariance matrix and
apply E · Λ^(−1/2) · Eᵗ · X_centered. -/

/-- Modelled from the spec: row centering, the first step of the whitening
preprocessor of preprocessing/whitening.py, which is missing from src. -/
noncomputable def centered {n m : ℕ} (X : Mat n m) : Mat n m :=
  fun i j => X i j - (∑ k, X i k) / (m : ℝ)

/-- Modelled from the spec: the N×N covariance matrix of the centered data,
second step of the whitening preprocessor, which is missing from src. -/
noncomputable def covariance {n m : ℕ} (X : Mat n m) : Matrix (Fin n) (Fin n) ℝ :=
  Matrix.of fun i k => (∑ j, centered X i j * centered X k j) / ((m : ℝ) - 1)

/-- The covariance matrix is real symmetric, hence Hermitian, so it has an
orthonormal eigendecomposition. -/
theorem covariance_isHermitian {n m : ℕ} (X : Mat n m) : (covariance X).IsHermitian := by
  unfold Matrix.IsHermitian
  ext i k
  simp only [covariance, Matrix.conjTranspose_apply, Matrix.of_apply, star_trivial]
  rw [Finset.sum_congr rfl fun j _ => mul_comm (centered X k j) (centered X i j)]

/-- Error kind raised by the whitening preprocessor on a degenerate input:
the spec mandates a distinguishable SingularCovarianceError when the
covariance matrix is singular, propagated to the caller. -/
inductive WhiteningError : Type
  | singularCovariance : WhiteningError
deriving DecidableEq

/-- Modelled from the spec: the whitening transform applied on the
non-degenerate path.  With (Λ, E) the eigendecomposition of the covariance
of X, the whitened matrix is E · Λ^(−1/2) · Eᵗ · X_centered. -/
noncomputable def whitening_transform {n m : ℕ} (X : Mat n m) : Mat n m :=
  let hC := covariance_isHermitian X
  let E : Matrix (Fin n) (Fin n) ℝ := hC.eigenvectorUnitary
  let D : Matrix (Fin n) (Fin n) ℝ :=
    Matrix.diagonal fun i => (Real.sqrt (hC.eigenvalues i))⁻¹
  let Y := E * D * E.conjTranspose * Matrix.of (centered X)
  fun i j => Y i j

/-- Modelled from the spec: preprocessing/whitening.py, missing from src.
Whitening cannot proceed when the covariance matrix is singular: that case
is reported as the distinguishable SingularCovarianceError (spec sections
4.1 and 7) rather than silently degraded; otherwise the eigendecomposition
transform is applied. -/
noncomputable def whitening {n m : ℕ} (X : Mat n m) : Except WhiteningError (Mat n m) :=
  if (covariance X).det = 0 then Except.error WhiteningError.singularCovariance
  else Except.ok (whitening_transform X)

/-! ## The FastICA engine loop (src/decomposition/fastICA.py, ica)

The weight matrix W is embedded as a function from row index to weight
vector, starting from np.zeros; row i is assigned once component i is done.
The random initial weights np.random.rand(components_nr) are an explicit
parameter init (the source draws them from the global random state).  The
second component of each result counts how many calculate_new_w evaluations
were executed, making the operational order of updates and factory failures
provable. -/

/-- Lines 61 to 70 of src/decomposition/fastICA.py, the deflation step for
component i: w_new -= np.dot(np.dot(w_new, W[:i].T), W[:i]), the
Gram-Schmidt style projection of w_new onto the first i rows of W. -/
noncomputable def deflate {n : ℕ} (w_new : Vec n) (W : ℕ → Vec n) (i : ℕ) : Vec n :=
  fun t => w_new t - ∑ k ∈ Finset.range i, dot w_new (W k) * W k t

/-- Lines 62 to 75 of src/decomposition/fastICA.py: the inner fixed-point loop
for component i, running on the remaining iteration budget (fuel).  Each pass
computes calculate_new_w, deflates when i ≥ 1, resolves the distance metric
by name (inside the loop, exactly as in the source), measures the distance
from the previous w to the new w, and stops early when it is below
tolerance.  Returns the final w (or the factory error) together with the
number of calculate_new_w evaluations executed. -/
noncomputable def ica_loop {n m : ℕ} (X : Mat n m) (dist_fn : String) (tolerance : ℝ)
    (i : ℕ) (W : ℕ → Vec n) : Vec n → ℕ → Except MetricError (Vec n) × ℕ
  | w, 0 => (Except.ok w, 0)
  | w, fuel + 1 =>
    let w_new0 := calculate_new_w w X
    let w_new := if 1 ≤ i then deflate w_new0 W i else w_new0
    match get_similarity_metric_fn n dist_fn with
    | Except.error e => (Except.error e, 1)
    | Except.ok distance_fn =>
      let dist := distance_fn w w_new
      if dist < tolerance then (Except.ok w_new, 1)
      else
        let r := ica_loop X dist_fn tolerance i W w_new fuel
        (r.1, r.2 + 1)

/-- Lines 57 to 78 of src/decomposition/fastICA.py: the outer loop over the
components still to estimate.  Component i starts from init i, runs the inner
loop with the full max_iter budget, and stores the resulting vector as row i
of W.  Returns the filled W (or the first factory error) together with the
total number of calculate_new_w evaluations executed. -/
noncomputable def ica_components {n m : ℕ} (X : Mat n m) (dist_fn : String)
    (tolerance : ℝ) (max_iter : ℕ) (init : ℕ → Vec n) :
    ℕ → ℕ → (ℕ → Vec n) → Except MetricError (ℕ → Vec n) × ℕ
  | _, 0, W => (Except.ok W, 0)
  | i, todo + 1, W =>
    let r := ica_loop X dist_fn tolerance i W (init i) max_iter
    match r.1 with
    | Except.error e => (Except.error e, r.2)
    | Except.ok w =>
      let r2 := ica_components X dist_fn tolerance max_iter init (i + 1) todo
        (Function.update W i w)
      (r2.1, r.2 + r2.2)

/-- Error kinds visible to a caller of ica: the unsupported-metric failure of
the metric factory, and the singular-covariance failure of the whitening
preprocessor, which the spec says is propagated to the caller and not
recovered internally. -/
inductive IcaError : Type
  | unsupportedMetric : IcaError
  | singularCovariance : IcaError
deriving DecidableEq

/-- Lines 35 to 81 of src/decomposition/fastICA.py: the ica entry point.
When do_whitening holds (source default True) the input is replaced by its
whitened version before anything else runs (line 49); a whitening failure on
a singular covariance therefore aborts the call with zero update
evaluations.  components_nr is the row count of the (whitened) input; all
components_nr rows of W are estimated starting from the zero matrix
np.zeros; finally S = np.dot(W, X).  The source defaults are
tolerance = 1e-5 and dist_fn = cosine; verbose only prints progress and has
no algorithmic effect, so it is not modelled.  The second component counts
the calculate_new_w evaluations executed. -/
noncomputable def ica {n m : ℕ} (X : Mat n m) (max_iter : ℕ) (tolerance : ℝ)
    (do_whitening : Bool) (dist_fn : String) (init : ℕ → Vec n) :
    Except IcaError (Mat n m) × ℕ :=
  match (if do_whitening then whitening X else Except.ok X) with
  | Except.error _ => (Except.error IcaError.singularCovariance, 0)
  | Except.ok X1 =>
    let r := ica_components X1 dist_fn tolerance max_iter init 0 n (fun _ _ => 0)
    (match r.1 with
     | Except.error _ => (Except.error IcaError.unsupportedMetric, r.2)
     | Except.ok W => (Except.ok fun i j => ∑ k, W i.val k * X1 k j, r.2))

/-! ## Helper lemmas -/

/-- The hard-coded factory lookup inside calculate_new_w resolves to the exp
contrast pair. -/
theorem contrast_lookup_exp :
    (get_contrast_function "exp").toOption.getD ((id : ℝ → ℝ), (id : ℝ → ℝ)) =
      (g_exp, g_der_exp) := rfl

/-- On the all-zero matrix the raw fixed-point update negates the weight
vector: wᵗX is zero, g vanishes there and the derivative mean is one. -/
theorem calculate_new_w_raw_zero_matrix {n m : ℕ} (hm : m ≠ 0) (w : Vec n) :
    calculate_new_w_raw w (fun _ _ => (0 : ℝ) : Mat n m) = fun i => -(w i) := by
  funext i
  have hmR : (m : ℝ) ≠ 0 := Nat.cast_ne_zero.mpr hm
  simp only [calculate_new_w_raw, contrast_lookup_exp]
  simp [g_exp, g_der_exp, Real.exp_zero, Finset.sum_const, Finset.card_univ,
    mul_comm, div_self hmR]

/-- On the all-zero matrix the normalized fixed-point update is the negated
weight vector divided by its Euclidean norm. -/
theorem calculate_new_w_zero_matrix {n m : ℕ} (hm : m ≠ 0) (w : Vec n) :
    calculate_new_w w (fun _ _ => (0 : ℝ) : Mat n m) =
      fun i => -(w i) / Real.sqrt (∑ k, w k ^ 2) := by
  funext i
  simp [calculate_new_w, calculate_new_w_raw_zero_matrix hm, neg_sq]

/-- One inner-loop pass for component 0: no deflation is applied; the
distance is measured from the previous w to the freshly normalized update. -/
theorem ica_loop_step_ok_zero {n m : ℕ} (X : Mat n m) (name : String)
    (f : Vec n → Vec n → ℝ) (tol : ℝ) (W : ℕ → Vec n) (w : Vec n) (fuel : ℕ)
    (h : get_similarity_metric_fn n name = Except.ok f) :
    ica_loop X name tol 0 W w (fuel + 1) =
      (if f w (calculate_new_w w X) < tol then (Except.ok (calculate_new_w w X), 1)
       else ((ica_loop X name tol 0 W (calculate_new_w w X) fuel).1,
         (ica_loop X name tol 0 W (calculate_new_w w X) fuel).2 + 1)) := by
  simp only [ica_loop, h]
  norm_num

/-- One inner-loop pass for a component i ≥ 1: the update is deflated against
the first i rows of W and the distance is measured from the previous w to the
deflated update. -/
theorem ica_loop_step_ok_pos {n m : ℕ} (X : Mat n m) (name : String)
    (f : Vec n → Vec n → ℝ) (tol : ℝ) (i : ℕ) (W : ℕ → Vec n) (w : Vec n) (fuel : ℕ)
    (hi : 1 ≤ i) (h : get_similarity_metric_fn n name = Except.ok f) :
    ica_loop X name tol i W w (fuel + 1) =
      (if f w (deflate (calculate_new_w w X) W i) < tol
       then (Except.ok (deflate (calculate_new_w w X) W i), 1)
       else ((ica_loop X name tol i W (deflate (calculate_new_w w X) W i) fuel).1,
         (ica_loop X name tol i W (deflate (calculate_new_w w X) W i) fuel).2 + 1)) := by
  simp only [ica_loop, h, if_pos hi]

/-- One inner-loop pass with an unknown metric name: the update is evaluated,
then the factory lookup fails and the error propagates with one
calculate_new_w evaluation already counted. -/
theorem ica_loop_step_err {n m : ℕ} (X : Mat n m) (name : String) (e : MetricError)
    (tol : ℝ) (i : ℕ) (W : ℕ → Vec n) (w : Vec n) (fuel : ℕ)
    (h : get_similarity_metric_fn n name = Except.error e) :
    ica_loop X name tol i W w (fuel + 1) = (Except.error e, 1) := by
  simp only [ica_loop, h]

/-- One outer-loop pass whose inner loop succeeds: component i runs the inner
loop from init i and its result is stored as row i of W before the remaining
components run. -/
theorem ica_components_step_ok {n m : ℕ} (X : Mat n m) (name : String) (tol : ℝ)
    (mi : ℕ) (init : ℕ → Vec n) (i todo : ℕ) (W : ℕ → Vec n) (w : Vec n) (c : ℕ)
    (h : ica_loop X name tol i W (init i) mi = (Except.ok w, c)) :
    (ica_components X name tol mi init i (todo + 1) W).1 =
      (ica_components X name tol mi init (i + 1) todo (Function.update W i w)).1 := by
  simp only [ica_components, h]

/-- One outer-loop pass whose inner loop hits the factory error: the error
and the update count propagate to the result of ica_components. -/
theorem ica_components_step_err {n m : ℕ} (X : Mat n m) (name : String) (tol : ℝ)
    (mi : ℕ) (init : ℕ → Vec n) (i todo : ℕ) (W : ℕ → Vec n) (e : MetricError) (c : ℕ)
    (h : ica_loop X name tol i W (init i) mi = (Except.error e, c)) :
    ica_components X name tol mi init i (todo + 1) W = (Except.error e, c) := by
  simp only [ica_components, h]

/-! ## Claims -/

/-- Claim C1: for every weight vector w and whitened matrix X, one raw
fixed-point update (line 28 of src/decomposition/fastICA.py) computes
w_new = mean_over_samples(X · g) − mean(gder) · w, where g and gder are the
contrast function selected by the hard-coded lookup (the exp pair) and its
derivative, evaluated at wᵗX. -/
theorem calculate_new_w_raw_eq_fixed_point_update {n m : ℕ} (w : Vec n) (X : Mat n m) :
    calculate_new_w_raw w X = fixedPointUpdateSpec g_exp g_der_exp w X := by
  funext i
  simp only [calculate_new_w_raw, contrast_lookup_exp, fixedPointUpdateSpec]

/-- The 2×1 all-zero mixture matrix used in the concrete counterexample run
(do_whitening is off, so it is fed to the loop as is). -/
noncomputable def X2 : Mat 2 1 := fun _ _ => 0

/-- Initial weights for the counterexample run: component 0 starts at (1,0),
component 1 at (3,4). -/
noncomputable def init2 : ℕ → Vec 2 := fun i => if i = 0 then ![1, 0] else ![3, 4]

/-- The square root of 25. -/
theorem sqrt25 : Real.sqrt 25 = 5 := by
  rw [show (25 : ℝ) = 5 ^ 2 by norm_num]
  exact Real.sqrt_sq (by norm_num)

/-- The factory resolves the manhattan name to compute_distance (length 2). -/
theorem lookup_manhattan2 :
    get_similarity_metric_fn 2 "manhattan" = Except.ok compute_distance := rfl

/-- On the zero matrix, the first update of the run sends (1,0) to (−1,0). -/
theorem calc_w0 : calculate_new_w (![1, 0] : Vec 2) X2 = ![(-1 : ℝ), 0] := by
  rw [show X2 = (fun _ _ => 0 : Mat 2 1) from rfl,
    calculate_new_w_zero_matrix one_ne_zero]
  funext t
  fin_cases t <;> norm_num [Fin.sum_univ_two, Real.sqrt_one]

/-- On the zero matrix, the first update of component 1 sends (3,4) to the
unit vector (−3/5, −4/5). -/
theorem calc_w1 : calculate_new_w (![3, 4] : Vec 2) X2 = ![(-3 / 5 : ℝ), -4 / 5] := by
  rw [show X2 = (fun _ _ => 0 : Mat 2 1) from rfl,
    calculate_new_w_zero_matrix one_ne_zero]
  have hsum : (∑ k, (![3, 4] : Vec 2) k ^ 2) = (25 : ℝ) := by
    norm_num [Fin.sum_univ_two]
  funext t
  rw [hsum, sqrt25]
  fin_cases t <;> norm_num

/-- The manhattan distance between (1,0) and (−1,0) is zero. -/
theorem dist_w0 : compute_distance (![1, 0] : Vec 2) (![(-1 : ℝ), 0]) = 0 := by
  norm_num [compute_distance, Fin.sum_univ_two]

/-- Deflating (−3/5, −4/5) against the stored row (−1,0) yields (0, −4/5),
a vector of norm 4/5: the projection destroys the unit norm. -/
theorem deflate_w1 :
    deflate (![(-3 / 5 : ℝ), -4 / 5])
        (Function.update (fun _ _ => (0 : ℝ) : ℕ → Vec 2) 0 ![(-1 : ℝ), 0]) 1 =
      ![(0 : ℝ), -4 / 5] := by
  funext t
  simp only [deflate, Finset.sum_range_one, Function.update_same, dot, Fin.sum_univ_two]
  fin_cases t <;> norm_num

/-- The manhattan distance between (3,4) and (0,−4/5) is positive. -/
theorem dist_w1 :
    compute_distance (![3, 4] : Vec 2) (![(0 : ℝ), -4 / 5]) = 3 + 16 / 5 := by
  have h1 : |(4 : ℝ) / 5| = 4 / 5 := abs_of_nonneg (by norm_num)
  have h2 : |(16 : ℝ) / 5| = 16 / 5 := abs_of_nonneg (by norm_num)
  norm_num [compute_distance, Fin.sum_univ_two, h1, h2]

/-- The inner loop for component 0 of the counterexample run returns (−1,0)
after its single iteration. -/
theorem loop_comp0 :
    ica_loop X2 "manhattan" 0 0 (fun _ _ => 0) (![1, 0] : Vec 2) 1 =
      (Except.ok (![(-1 : ℝ), 0] : Vec 2), 1) := by
  have h := ica_loop_step_ok_zero X2 "manhattan" compute_distance 0
    (fun _ _ => 0) (![1, 0] : Vec 2) 0 lookup_manhattan2
  rw [calc_w0, dist_w0, if_neg (lt_irrefl (0 : ℝ))] at h
  simpa [ica_loop] using h

/-- The inner loop for component 1 of the counterexample run returns the
deflated, non-renormalized vector (0, −4/5) after its single iteration. -/
theorem loop_comp1 :
    ica_loop X2 "manhattan" 0 1
        (Function.update (fun _ _ => (0 : ℝ) : ℕ → Vec 2) 0 ![(-1 : ℝ), 0])
        (![3, 4] : Vec 2) 1 =
      (Except.ok (![(0 : ℝ), -4 / 5] : Vec 2), 1) := by
  have h := ica_loop_step_ok_pos X2 "manhattan" compute_distance 0 1
    (Function.update (fun _ _ => (0 : ℝ) : ℕ → Vec 2) 0 ![(-1 : ℝ), 0])
    (![3, 4] : Vec 2) 0 le_rfl lookup_manhattan2
  rw [calc_w1, deflate_w1, dist_w1, if_neg (by norm_num : ¬ (3 + 16 / 5 : ℝ) < 0)] at h
  simpa [ica_loop] using h

/-- Claim C2 (counterexample): in a concrete run (2×1 zero input, manhattan
metric, tolerance 0, max_iter 1, whitening off) the engine stores as row 1
of W the post-deflation vector (0, −4/5), whose squared norm is 16/25 ≠ 1:
deflation happens after the normalization inside calculate_new_w and the
result is stored without renormalization, so not every row of W is a unit
vector. -/
theorem row_one_not_unit_after_deflation :
    (ica_components X2 "manhattan" 0 1 init2 0 2 (fun _ _ => 0)).1.map
        (fun W => ∑ k, W 1 k ^ 2) = Except.ok (16 / 25 : ℝ) ∧
      (16 / 25 : ℝ) ≠ 1 := by
  refine ⟨?_, by norm_num⟩
  have h0 : (ica_components X2 "manhattan" 0 1 init2 0 2 (fun _ _ => 0)).1 =
      (ica_components X2 "manhattan" 0 1 init2 1 1
        (Function.update (fun _ _ => (0 : ℝ) : ℕ → Vec 2) 0 ![(-1 : ℝ), 0])).1 :=
    ica_components_step_ok X2 "manhattan" 0 1 init2 0 1 (fun _ _ => 0) _ _
      (by rw [show init2 0 = (![1, 0] : Vec 2) from rfl]; exact loop_comp0)
  have h1 : (ica_components X2 "manhattan" 0 1 init2 1 1
        (Function.update (fun _ _ => (0 : ℝ) : ℕ → Vec 2) 0 ![(-1 : ℝ), 0])).1 =
      (ica_components X2 "manhattan" 0 1 init2 2 0
        (Function.update
          (Function.update (fun _ _ => (0 : ℝ) : ℕ → Vec 2) 0 ![(-1 : ℝ), 0])
          1 ![(0 : ℝ), -4 / 5])).1 :=
    ica_components_step_ok X2 "manhattan" 0 1 init2 1 0 _ _ _
      (by rw [show init2 1 = (![3, 4] : Vec 2) from rfl]; exact loop_comp1)
  rw [h0, h1]
  simp only [ica_components, Except.map, Function.update_same]
  norm_num [Fin.sum_univ_two]

/-- Claim C2 (amended): the vector returned by calculate_new_w itself is a
unit vector whenever the raw update is nonzero; the normalization invariant
holds after the update step but not after deflation. -/
theorem calculate_new_w_unit_norm {n m : ℕ} (w : Vec n) (X : Mat n m)
    (h : (∑ k, calculate_new_w_raw w X k ^ 2) ≠ 0) :
    ∑ i, calculate_new_w w X i ^ 2 = 1 := by
  have hpos : 0 < ∑ k, calculate_new_w_raw w X k ^ 2 :=
    lt_of_le_of_ne (Finset.sum_nonneg fun k _ => sq_nonneg _) (Ne.symm h)
  simp only [calculate_new_w, div_pow]
  rw [Real.sq_sqrt hpos.le, ← Finset.sum_div]
  exact div_self h

/-- Claim C2 (witness for the amended theorem): at w = (1), X = ((0)) the raw
update is (−1), which is nonzero, and the normalized update indeed has unit
squared norm. -/
theorem calculate_new_w_unit_norm_witness :
    (∑ k, calculate_new_w_raw (fun _ => 1 : Vec 1) (fun _ _ => 0 : Mat 1 1) k ^ 2) ≠ 0 ∧
      ∑ i, calculate_new_w (fun _ => 1 : Vec 1) (fun _ _ => 0 : Mat 1 1) i ^ 2 = 1 := by
  have h : (∑ k, calculate_new_w_raw (fun _ => 1 : Vec 1)
      (fun _ _ => 0 : Mat 1 1) k ^ 2) ≠ 0 := by
    rw [calculate_new_w_raw_zero_matrix one_ne_zero]
    norm_num
  exact ⟨h, calculate_new_w_unit_norm _ _ h⟩

/-- Claim C3 (counterexample): at w = (1), X = ((0)) the update computed by
the engine is (−1), the normalized exp update, which differs from the
normalized kurtosis update (the zero vector); the embedding of ica exposes no
contrast_function option at all, and its update is not the one a kurtosis
selection would give. -/
theorem update_ne_kurtosis_update :
    calculate_new_w (fun _ => 1 : Vec 1) (fun _ _ => 0 : Mat 1 1) ≠
      normalizeVec (fixedPointUpdateSpec g_kurtosis g_der_kurtosis
        (fun _ => 1 : Vec 1) (fun _ _ => 0 : Mat 1 1)) := by
  intro hcontra
  rw [calculate_new_w_zero_matrix one_ne_zero] at hcontra
  have h0 := congrFun hcontra 0
  simp [fixedPointUpdateSpec, normalizeVec, g_kurtosis, g_der_kurtosis,
    Real.sqrt_one] at h0

/-- Claim C3 (amended): the engine hard-codes the name exp inside
calculate_new_w, so the fixed-point update always evaluates the exp contrast
pair and then normalizes, for every input; no contrast_function configuration
option exists on ica. -/
theorem calculate_new_w_always_exp {n m : ℕ} (w : Vec n) (X : Mat n m) :
    calculate_new_w w X =
      normalizeVec (fixedPointUpdateSpec g_exp g_der_exp w X) := by
  funext i
  simp only [calculate_new_w, calculate_new_w_raw, contrast_lookup_exp,
    normalizeVec, fixedPointUpdateSpec]

/-- With a known metric the inner loop never fails: it always returns some
final weight vector. -/
theorem ica_loop_ok {n m : ℕ} (X : Mat n m) (name : String)
    (f : Vec n → Vec n → ℝ) (tol : ℝ) (i : ℕ) (W : ℕ → Vec n)
    (h : get_similarity_metric_fn n name = Except.ok f) :
    ∀ fuel w, ∃ v, (ica_loop X name tol i W w fuel).1 = Except.ok v := by
  intro fuel
  induction fuel with
  | zero => exact fun w => ⟨w, rfl⟩
  | succ k ih =>
    intro w
    simp only [ica_loop, h]
    by_cases hd :
        f w (if 1 ≤ i then deflate (calculate_new_w w X) W i else calculate_new_w w X) < tol
    · exact ⟨if 1 ≤ i then deflate (calculate_new_w w X) W i else calculate_new_w w X,
        by simp [hd]⟩
    · obtain ⟨v, hv⟩ :=
        ih (if 1 ≤ i then deflate (calculate_new_w w X) W i else calculate_new_w w X)
      exact ⟨v, by simp [hd, hv]⟩

/-- With a known metric the outer loop never fails: it always returns some
filled weight matrix. -/
theorem ica_components_ok {n m : ℕ} (X : Mat n m) (name : String)
    (f : Vec n → Vec n → ℝ) (tol : ℝ) (mi : ℕ) (init : ℕ → Vec n)
    (h : get_similarity_metric_fn n name = Except.ok f) :
    ∀ todo i W, ∃ V, (ica_components X name tol mi init i todo W).1 = Except.ok V := by
  intro todo
  induction todo with
  | zero => exact fun i W => ⟨W, rfl⟩
  | succ k ih =>
    intro i W
    obtain ⟨w, hw⟩ := ica_loop_ok X name f tol i W h mi (init i)
    obtain ⟨V, hV⟩ := ih (i + 1) (Function.update W i w)
    exact ⟨V, by simp only [ica_components, hw, hV]⟩

/-- Claim C4 (counterexample): calling ica on a 1×1 input (whitening off)
with the unknown metric name euclidean and max_iter 1 does fail with the
unsupported-metric error, but only after one fixed-point update has been
executed (the second component of the result, the count of calculate_new_w
evaluations, is 1, not 0), refuting that no update step runs first. -/
theorem unknown_metric_error_after_one_update :
    ica (fun _ _ => 0 : Mat 1 1) 1 0 false "euclidean" (fun _ _ => 1) =
      (Except.error IcaError.unsupportedMetric, 1) ∧ (1 : ℕ) ≠ 0 := by
  have hloop := ica_loop_step_err (fun _ _ => 0 : Mat 1 1) "euclidean"
    MetricError.unsupportedMetric 0 0 (fun _ _ => 0)
    ((fun _ _ => 1 : ℕ → Vec 1) 0) 0 rfl
  have hcomp := ica_components_step_err (fun _ _ => 0 : Mat 1 1) "euclidean" 0 1
    (fun _ _ => 1) 0 0 (fun _ _ => 0) MetricError.unsupportedMetric 1 hloop
  refine ⟨?_, one_ne_zero⟩
  simp only [ica, Bool.false_eq_true, if_false, hcomp]

/-- Claim C4 (amended): with an unknown distance-metric name, at least one
mixture row, a positive iteration budget, and an input the preprocessing
accepts (whitening succeeds, or is off), ica fails with
UnsupportedMetricError at the first convergence check of the first component,
after exactly one fixed-point update evaluation — not before the iteration
begins.  (On a singular-covariance input with whitening on, the call instead
fails earlier, in whitening, with SingularCovarianceError.) -/
theorem unknown_metric_errors_after_first_update {n m : ℕ} (X : Mat n m)
    (max_iter : ℕ) (tol : ℝ) (dw : Bool) (name : String) (init : ℕ → Vec n)
    (X1 : Mat n m) (hn : 0 < n) (hmi : 0 < max_iter)
    (hw : (if dw then whitening X else Except.ok X) = Except.ok X1)
    (h : get_similarity_metric_fn n name = Except.error MetricError.unsupportedMetric) :
    ica X max_iter tol dw name init = (Except.error IcaError.unsupportedMetric, 1) := by
  obtain ⟨n1, rfl⟩ : ∃ n1, n = n1 + 1 :=
    ⟨n - 1, (Nat.succ_pred_eq_of_pos hn).symm⟩
  obtain ⟨k, rfl⟩ : ∃ k, max_iter = k + 1 :=
    ⟨max_iter - 1, (Nat.succ_pred_eq_of_pos hmi).symm⟩
  have hloop := ica_loop_step_err X1 name
    MetricError.unsupportedMetric tol 0 (fun _ _ => 0) (init 0) k h
  have hcomp := ica_components_step_err X1 name tol
    (k + 1) init 0 n1 (fun _ _ => 0) MetricError.unsupportedMetric 1 hloop
  simp only [ica, hw, hcomp]

/-- Claim C4 (witness for the amended theorem): a concrete 1×2 call with the
unknown name bogus, whitening off and max_iter 1 yields the error with
exactly one update executed. -/
theorem unknown_metric_errors_witness :
    (0 : ℕ) < 1 ∧
      ((if false then whitening (fun _ _ => 0 : Mat 1 2) else
          Except.ok (fun _ _ => 0 : Mat 1 2)) = Except.ok (fun _ _ => 0 : Mat 1 2)) ∧
      get_similarity_metric_fn 1 "bogus" = Except.error MetricError.unsupportedMetric ∧
      ica (fun _ _ => 0 : Mat 1 2) 1 0 false "bogus" (fun _ _ => 1) =
        (Except.error IcaError.unsupportedMetric, 1) :=
  ⟨Nat.one_pos, rfl, rfl,
    unknown_metric_errors_after_first_update _ _ _ _ _ _ _ Nat.one_pos Nat.one_pos rfl rfl⟩

/-- Claim C5: with a known metric, one pass of the inner loop measures the
convergence distance between the previous weight vector w (taken before
deflation) and, for components i ≥ 1, the update deflated against rows
0..i−1 of W; for component 0 the update is compared without any deflation. -/
theorem loop_distance_uses_post_deflation {n m : ℕ} (X : Mat n m) (name : String)
    (f : Vec n → Vec n → ℝ) (tol : ℝ) (W : ℕ → Vec n) (w : Vec n) (fuel : ℕ)
    (h : get_similarity_metric_fn n name = Except.ok f) :
    (∀ i, 1 ≤ i →
      ica_loop X name tol i W w (fuel + 1) =
        (if f w (deflate (calculate_new_w w X) W i) < tol
         then (Except.ok (deflate (calculate_new_w w X) W i), 1)
         else ((ica_loop X name tol i W (deflate (calculate_new_w w X) W i) fuel).1,
           (ica_loop X name tol i W (deflate (calculate_new_w w X) W i) fuel).2 + 1))) ∧
      ica_loop X name tol 0 W w (fuel + 1) =
        (if f w (calculate_new_w w X) < tol
         then (Except.ok (calculate_new_w w X), 1)
         else ((ica_loop X name tol 0 W (calculate_new_w w X) fuel).1,
           (ica_loop X name tol 0 W (calculate_new_w w X) fuel).2 + 1)) :=
  ⟨fun i hi => ica_loop_step_ok_pos X name f tol i W w fuel hi h,
    ica_loop_step_ok_zero X name f tol W w fuel h⟩

/-- Claim C5 (witness): the characterization instantiated for component 1
with the manhattan metric on a concrete 1×1 input. -/
theorem loop_distance_witness :
    get_similarity_metric_fn 1 "manhattan" = Except.ok compute_distance ∧
      ica_loop (fun _ _ => 0 : Mat 1 1) "manhattan" 0 1 (fun _ _ => 0)
          (fun _ => 1) (0 + 1) =
        (if compute_distance (fun _ => 1)
            (deflate (calculate_new_w (fun _ => 1) (fun _ _ => 0 : Mat 1 1))
              (fun _ _ => 0) 1) < 0
         then (Except.ok (deflate (calculate_new_w (fun _ => 1)
             (fun _ _ => 0 : Mat 1 1)) (fun _ _ => 0) 1), 1)
         else ((ica_loop (fun _ _ => 0 : Mat 1 1) "manhattan" 0 1 (fun _ _ => 0)
             (deflate (calculate_new_w (fun _ => 1) (fun _ _ => 0 : Mat 1 1))
               (fun _ _ => 0) 1) 0).1,
           (ica_loop (fun _ _ => 0 : Mat 1 1) "manhattan" 0 1 (fun _ _ => 0)
             (deflate (calculate_new_w (fun _ => 1) (fun _ _ => 0 : Mat 1 1))
               (fun _ _ => 0) 1) 0).2 + 1)) :=
  ⟨rfl, (loop_distance_uses_post_deflation (fun _ _ => 0 : Mat 1 1) "manhattan"
    compute_distance 0 (fun _ _ => 0) (fun _ => 1) 0 rfl).1 1 le_rfl⟩

/-- Claim C6: on a valid input — one the preprocessing accepts: whitening
succeeds, or is off — and with a known distance metric, ica never fails,
whatever the iteration budget and tolerance: even when every component
exhausts max_iter without converging (for instance max_iter 1 with
tolerance 0), the call completes and returns an estimate.  (An input with a
singular covariance and whitening on is a precondition violation the spec
routes to SingularCovarianceError instead.) -/
theorem ica_ok_of_known_metric {n m : ℕ} (X : Mat n m) (max_iter : ℕ) (tol : ℝ)
    (dw : Bool) (name : String) (init : ℕ → Vec n) (X1 : Mat n m)
    (hw : (if dw then whitening X else Except.ok X) = Except.ok X1)
    (h : ∃ f, get_similarity_metric_fn n name = Except.ok f) :
    ∃ S, (ica X max_iter tol dw name init).1 = Except.ok S := by
  obtain ⟨f, hf⟩ := h
  obtain ⟨V, hV⟩ := ica_components_ok X1 name f tol
    max_iter init hf n 0 (fun _ _ => 0)
  refine ⟨fun i j => ∑ k, V i.val k * X1 k j, ?_⟩
  simp only [ica, hw, hV]

/-- Claim C6 (witness): the non-convergence boundary of the spec: a 1×1 call
with the manhattan metric, max_iter 1 and tolerance 0 completes and returns
some estimate. -/
theorem ica_ok_witness :
    ((if false then whitening (fun _ _ => 0 : Mat 1 1) else
        Except.ok (fun _ _ => 0 : Mat 1 1)) = Except.ok (fun _ _ => 0 : Mat 1 1)) ∧
      (∃ f, get_similarity_metric_fn 1 "manhattan" = Except.ok f) ∧
      ∃ S, (ica (fun _ _ => 0 : Mat 1 1) 1 0 false "manhattan" (fun _ _ => 1)).1 =
        Except.ok S :=
  ⟨rfl, ⟨compute_distance, rfl⟩,
    ica_ok_of_known_metric _ _ _ _ _ _ _ rfl ⟨compute_distance, rfl⟩⟩

/-- A concrete full-rank 2×3 input: rows (1,0,0) and (0,1,0); its covariance
matrix has determinant 1/12, so whitening accepts it. -/
noncomputable def Xfr : Mat 2 3 := ![![1, 0, 0], ![0, 1, 0]]

/-- The covariance of the full-rank example input is invertible. -/
theorem cov_Xfr_det : (covariance Xfr).det = 1 / 12 := by
  rw [Matrix.det_fin_two]
  norm_num [covariance, centered, Xfr, Fin.sum_univ_three]

/-- Whitening accepts the full-rank example input and applies the
eigendecomposition transform to it. -/
theorem whitening_Xfr : whitening Xfr = Except.ok (whitening_transform Xfr) := by
  have hdet : ¬ (covariance Xfr).det = 0 := by
    rw [cov_Xfr_det]
    norm_num
  rw [whitening, if_neg hdet]

/-- Claim C7 (counterexample): the constant all-ones 2×3 input has an
identically zero covariance matrix; with whitening on (the source default),
ica fails with the singular-covariance error and returns no source matrix at
all, refuting the claim for every N×M input. -/
theorem ica_singular_input_errors :
    (ica (fun _ _ => 1 : Mat 2 3) 1 0 true "manhattan" (fun _ _ => 1)).1 =
      Except.error IcaError.singularCovariance := by
  have hdet : (covariance (fun _ _ => 1 : Mat 2 3)).det = 0 := by
    rw [Matrix.det_fin_two]
    norm_num [covariance, centered, Fin.sum_univ_three]
  have hw : whitening (fun _ _ => 1 : Mat 2 3) =
      Except.error WhiteningError.singularCovariance := by
    rw [whitening, if_pos hdet]
  simp only [ica, if_true, hw]

/-- Claim C7 (amended): with a known distance metric and an input the
preprocessing accepts (whitening succeeds on it, or is off), ica returns a
source matrix S of the same N×M shape as its input (the type of the
result), computed as S = W · X_whitened for some square N×N unmixing matrix
W, where X_whitened is the successfully whitened input (the raw input when
whitening is off); on a singular-covariance input with whitening on it
fails with SingularCovarianceError instead. -/
theorem ica_returns_unmixing_product {n m : ℕ} (X : Mat n m) (max_iter : ℕ)
    (tol : ℝ) (dw : Bool) (name : String) (init : ℕ → Vec n) (X1 : Mat n m)
    (hw : (if dw then whitening X else Except.ok X) = Except.ok X1)
    (h : ∃ f, get_similarity_metric_fn n name = Except.ok f) :
    ∃ W : Fin n → Fin n → ℝ,
      (ica X max_iter tol dw name init).1 = Except.ok (matMul W X1) := by
  obtain ⟨f, hf⟩ := h
  obtain ⟨V, hV⟩ := ica_components_ok X1 name f tol
    max_iter init hf n 0 (fun _ _ => 0)
  refine ⟨fun i k => V i.val k, ?_⟩
  simp only [ica, hw, hV]
  rfl

/-- Claim C7 (witness for the amended theorem): a concrete 2×3 call on the
full-rank input with whitening on and the manhattan metric returns some
product W · X_whitened of the input shape, X_whitened being the accepted
whitening output. -/
theorem ica_unmixing_witness :
    ((if true then whitening Xfr else Except.ok Xfr) =
        Except.ok (whitening_transform Xfr)) ∧
      (∃ f, get_similarity_metric_fn 2 "manhattan" = Except.ok f) ∧
      ∃ W : Fin 2 → Fin 2 → ℝ,
        (ica Xfr 1 0 true "manhattan" (fun _ _ => 1)).1 =
          Except.ok (matMul W (whitening_transform Xfr)) :=
  ⟨whitening_Xfr, ⟨compute_distance, rfl⟩,
    ica_returns_unmixing_product Xfr 1 0 true "manhattan" (fun _ _ => 1)
      (whitening_transform Xfr) whitening_Xfr ⟨compute_distance, rfl⟩⟩

/-- Claim C8: the manhattan metric returns the sum of the absolute
differences of the elementwise absolute values of the two vectors, and that
value is non-negative. -/
theorem compute_distance_spec_nonneg {n : ℕ} (a b : Vec n) :
    compute_distance a b = (∑ i, abs (|a i| - |b i|)) ∧ 0 ≤ compute_distance a b := by
  refine ⟨rfl, ?_⟩
  exact Finset.sum_nonneg fun i _ => abs_nonneg _

/-- Claim C9: the manhattan metric is sign-invariant: negating either
argument globally leaves the distance unchanged. -/
theorem compute_distance_sign_invariant {n : ℕ} (a b : Vec n) :
    compute_distance (-a) b = compute_distance a b ∧
      compute_distance a (-b) = compute_distance a b := by
  constructor <;> simp [compute_distance, abs_neg]

/-- Claim C10: the normalization inside calculate_new_w has no guard: at
w = 0, X = 0 (one mixture, one sample) the raw update is the zero vector, so
the divisor sqrt of the sum of squares is 0, and the returned vector has
squared norm 0, not 1 — the division-by-zero branch is reachable and the
result is not a unit vector. -/
theorem normalization_divisor_zero_reachable :
    Real.sqrt (∑ k, (calculate_new_w_raw (fun _ => 0 : Vec 1)
        (fun _ _ => 0 : Mat 1 1) k) ^ 2) = 0 ∧
      (∑ i, (calculate_new_w (fun _ => 0 : Vec 1) (fun _ _ => 0 : Mat 1 1) i) ^ 2) ≠ 1 := by
  have hraw := calculate_new_w_raw_zero_matrix (m := 1) one_ne_zero (fun _ => 0 : Vec 1)
  have hfull := calculate_new_w_zero_matrix (m := 1) one_ne_zero (fun _ => 0 : Vec 1)
  constructor
  · rw [hraw]
    simp
  · rw [hfull]
    norm_num

end FastICA
